import Mathlib

/-!
Verification of the picokeys-config-gui device-protocol core against its
specification.  The Rust sources under `src-tauri/src` are shallowly embedded:
bytes are `Nat` values below 256, byte buffers are `List Nat`, Rust `Result`
becomes `Except`, Rust `Option` becomes `Option`, and integer casts (`as u8`,
`as u16`) are explicit `% 256` / `% 65536` reductions.
-/

namespace PicoKeys

deriving instance DecidableEq for Except

/-! ## Error taxonomies (src-tauri/src/error.rs) -/

/-- `HsmError` from `error.rs` (string payloads of `CommunicationError` are kept
as `String`). -/
inductive HsmError where
  | StatusError (sw1 sw2 : Nat)
  | PinInvalid (retries : Nat)
  | PinLocked
  | SoPinInvalid
  | SoPinLocked
  | PinFormatInvalid
  | SoPinFormatInvalid
  | KeyNotFound (id : Nat)
  | CertificateNotFound (id : Nat)
  | DkekNotInitialized
  | DeviceNotInitialized
  | CommunicationError (msg : String)
  | Timeout
  | NotSupported
  deriving Repr, DecidableEq

/-- `FidoError` from `error.rs`. -/
inductive FidoError where
  | CtapError (code : Nat)
  | PinInvalid (retries : Nat)
  | PinLocked
  | PinLengthInvalid
  | NotSupported
  | CommunicationError (msg : String)
  | Timeout
  | CborError (msg : String)
  deriving Repr, DecidableEq

/-- `CborError` from `error.rs`. -/
inductive CborError where
  | EncodingError (msg : String)
  | DecodingError (msg : String)
  | UnexpectedFormat
  deriving Repr, DecidableEq

/-- `ApduError` from `error.rs`. -/
inductive ApduError where
  | IncompleteResponse (len : Nat)
  | EncodingError (msg : String)
  | UnexpectedStatus (sw1 sw2 : Nat)
  deriving Repr, DecidableEq

/-- `DeviceError` from `error.rs`. -/
inductive DeviceError where
  | NotFound (path : String)
  | ConnectionLost
  | Timeout
  | OpenFailed (msg : String)
  | DeviceBusy
  | UnsupportedDevice
  deriving Repr, DecidableEq

/-! ## APDU data model (src-tauri/src/hsm/types.rs) -/

/-- `ApduCommand` from `hsm/types.rs`: `cla/ins/p1/p2 : u8`,
`data : Option<Vec<u8>>`, `le : Option<u16>`. -/
structure ApduCommand where
  cla : Nat
  ins : Nat
  p1 : Nat
  p2 : Nat
  data : Option (List Nat)
  le : Option Nat
  deriving Repr, DecidableEq

/-- `ApduResponse` from `hsm/types.rs`. -/
structure ApduResponse where
  data : List Nat
  sw1 : Nat
  sw2 : Nat
  deriving Repr, DecidableEq

/-! ## APDU codec (src-tauri/src/hsm/apdu.rs) -/

/-- `ApduCodecImpl::needs_extended`: extended framing is required when the data
length exceeds 255 or `le` (defaulting to 0 when absent) exceeds 256. -/
def needs_extended (cmd : ApduCommand) : Bool :=
  let dataLen := (cmd.data.map List.length).getD 0
  let le := cmd.le.getD 0
  decide (dataLen > 255) || decide (le > 256)

/-- `ApduCodecImpl::encode_extended`.  `data.len() as u16` is the Rust
truncating cast, embedded as `% 65536`; `(x >> 8) as u8` and `(x & 0xFF) as u8`
on a `u16` value become `/ 256` and `% 256`.  The `unwrap()` calls are guarded
by `has_data` / `has_le` in the source and are embedded as `getD`. -/
def encode_extended (cmd : ApduCommand) (has_data has_le : Bool) : List Nat :=
  let buf := [cmd.cla, cmd.ins, cmd.p1, cmd.p2]
  match has_data, has_le with
  | false, true =>
    let le := cmd.le.getD 0
    buf ++ [0x00, le / 256 % 256, le % 256]
  | true, false =>
    let data := cmd.data.getD []
    let lc := data.length % 65536
    buf ++ [0x00, lc / 256, lc % 256] ++ data
  | true, true =>
    let data := cmd.data.getD []
    let lc := data.length % 65536
    let le := cmd.le.getD 0
    buf ++ ([0x00, lc / 256, lc % 256] ++ data ++ [le / 256 % 256, le % 256])
  | false, false => buf

/-- `ApduCodecImpl::encode_apdu`: standard ISO 7816-4 four-case encoding,
switching to `encode_extended` when `needs_extended` holds.  `data.len() as u8`
is embedded as `% 256` (in the standard branch the length is at most 255). -/
def encode_apdu (cmd : ApduCommand) : List Nat :=
  let has_data := match cmd.data with
    | some d => !d.isEmpty
    | none => false
  let has_le := cmd.le.isSome
  if needs_extended cmd then encode_extended cmd has_data has_le
  else
    let buf := [cmd.cla, cmd.ins, cmd.p1, cmd.p2]
    match has_data, has_le with
    | false, false => buf
    | false, true =>
      let le := cmd.le.getD 0
      buf ++ [if 256 ≤ le then 0x00 else le % 256]
    | true, false =>
      let data := cmd.data.getD []
      buf ++ [data.length % 256] ++ data
    | true, true =>
      let data := cmd.data.getD []
      let le := cmd.le.getD 0
      buf ++ ([data.length % 256] ++ data ++ [if 256 ≤ le then 0x00 else le % 256])

/-- `ApduCodecImpl::decode_apdu_response`: at least two bytes required; last
two bytes are the status word, the rest is data. -/
def decode_apdu_response (raw : List Nat) : Except ApduError ApduResponse :=
  if raw.length < 2 then .error (.IncompleteResponse raw.length)
  else
    .ok { data := raw.take (raw.length - 2)
          sw1 := raw.getD (raw.length - 2) 0
          sw2 := raw.getD (raw.length - 1) 0 }

/-- `ApduCodecImpl::status_to_error`: the Rust match arms in source order.
`sw2 & 0xF0 == 0xC0` and `sw2 & 0x0F` are embedded with `Nat.land`. -/
def status_to_error (sw1 sw2 : Nat) : Option HsmError :=
  if sw1 = 0x90 ∧ sw2 = 0x00 then none
  else if sw1 = 0x61 then none
  else if sw1 = 0x63 ∧ sw2 &&& 0xF0 = 0xC0 then some (.PinInvalid (sw2 &&& 0x0F))
  else if sw1 = 0x69 ∧ sw2 = 0x83 then some .PinLocked
  else if sw1 = 0x69 ∧ sw2 = 0x82 then some .SoPinInvalid
  else if sw1 = 0x6A ∧ sw2 = 0x82 then some (.KeyNotFound 0)
  else if sw1 = 0x6A ∧ sw2 = 0x88 then some (.KeyNotFound 0)
  else some (.StatusError sw1 sw2)

/-- Specification-side APDU encoder, transcribed from the spec's words (§4.2):
four standard cases when data length ≤ 255 and `le` ≤ 256, with `le = 256`
encoded as the sentinel byte `0x00`; otherwise extended framing with a `0x00`
marker and 2-byte big-endian length fields; empty data treated as absent.
Used only to compare against `encode_apdu`, which is the embedding of the
source. -/
def encode_apdu_spec (cmd : ApduCommand) : List Nat :=
  let hdr := [cmd.cla, cmd.ins, cmd.p1, cmd.p2]
  let dat := cmd.data.getD []
  let hasData := !dat.isEmpty
  if dat.length ≤ 255 ∧ cmd.le.getD 0 ≤ 256 then
    match hasData, cmd.le with
    | false, none => hdr
    | false, some le => hdr ++ [if le = 256 then 0x00 else le]
    | true, none => hdr ++ [dat.length] ++ dat
    | true, some le => hdr ++ ([dat.length] ++ dat ++ [if le = 256 then 0x00 else le])
  else
    match hasData, cmd.le with
    | false, some le => hdr ++ [0x00, le / 256, le % 256]
    | true, none => hdr ++ [0x00, dat.length / 256, dat.length % 256] ++ dat
    | true, some le =>
        hdr ++ ([0x00, dat.length / 256, dat.length % 256] ++ dat ++ [le / 256, le % 256])
    | false, none => hdr

/-! ## GET RESPONSE chaining (src-tauri/src/hsm/mod.rs, `transmit_raw`)

The PC/SC card is modeled as the finite sequence of replies it will produce:
each element is `some reply` for a successful `card.transmit`, or `none` for a
transmit failure.  The loop's outgoing GET RESPONSE commands are logged. -/

/-- The GET RESPONSE command bytes built inside `transmit_raw`:
`CLA=00 INS=C0 P1=00 P2=00 Le=sw2`. -/
def get_response_cmd (sw2 : Nat) : List Nat := [0x00, 0xC0, 0x00, 0x00, sw2]

/-- The loop guard in `transmit_raw`: continue while the accumulated reply has
at least two bytes and its second-to-last byte (SW1) is `0x61`. -/
def trailing61 (r : List Nat) : Bool :=
  decide (2 ≤ r.length) && decide (r.getD (r.length - 2) 0 = 0x61)

/-- The `61 XX` loop body of `transmit_raw`: while the trailing status is
`0x61 XX`, strip the status bytes, transmit GET RESPONSE (consuming the next
transport reply; exhausted or failing transport is the transmit-error path),
and append the reply.  Returns the GET RESPONSE commands issued and the final
outcome. -/
def chain_loop : List (Option (List Nat)) → List Nat →
    List (List Nat) × Except HsmError (List Nat)
  | [], result =>
    if trailing61 result then ([], .error (.CommunicationError "GET RESPONSE 失敗"))
    else ([], .ok result)
  | none :: _, result =>
    if trailing61 result then ([], .error (.CommunicationError "GET RESPONSE 失敗"))
    else ([], .ok result)
  | some gr :: rest, result =>
    if trailing61 result then
      let next := chain_loop rest (result.take (result.length - 2) ++ gr)
      (get_response_cmd (result.getD (result.length - 1) 0) :: next.1, next.2)
    else ([], .ok result)

/-- `HsmModuleImpl::transmit_raw`: the initial transmit consumes the first
transport reply (failure is the `APDU 傳送失敗` communication error), then the
`61 XX` chaining loop runs. -/
def transmit_raw (transport : List (Option (List Nat))) :
    List (List Nat) × Except HsmError (List Nat) :=
  match transport with
  | [] => ([], .error (.CommunicationError "APDU 傳送失敗"))
  | none :: _ => ([], .error (.CommunicationError "APDU 傳送失敗"))
  | some resp :: rest => chain_loop rest resp

/-- Number of transport replies that themselves end in a `61 XX` status. -/
def count61 (t : List (Option (List Nat))) : Nat :=
  t.countP (fun o => match o with
    | some gr => trailing61 gr
    | none => false)

/-! ## PIN validators (src-tauri/src/fido/mod.rs, src-tauri/src/hsm/mod.rs)

Rust `&str` values are modeled as lists of Unicode scalar values
(`List Char`).  Rust `str::len()` is the UTF-8 byte length: the sum of each
character's `char::len_utf8`. -/

/-- Rust `char::len_utf8`: the number of bytes of the character's UTF-8
encoding, by code-point range. -/
def rust_char_utf8_len (c : Char) : Nat :=
  if c.toNat < 0x80 then 1
  else if c.toNat < 0x800 then 2
  else if c.toNat < 0x10000 then 3
  else 4

/-- Rust `str::len()` / `str::as_bytes().len()`: UTF-8 byte length. -/
def str_byte_len (s : List Char) : Nat := (s.map rust_char_utf8_len).sum

/-- Rust `char::is_ascii_hexdigit`: `0-9`, `a-f`, `A-F`. -/
def is_ascii_hexdigit (c : Char) : Bool :=
  (decide (48 ≤ c.toNat) && decide (c.toNat ≤ 57)) ||
  (decide (97 ≤ c.toNat) && decide (c.toNat ≤ 102)) ||
  (decide (65 ≤ c.toNat) && decide (c.toNat ≤ 70))

/-- `FidoModuleImpl::validate_pin`: `pin.as_bytes().len()` must lie in
`[4, 63]`. -/
def fido_validate_pin (pin : List Char) : Except FidoError Unit :=
  if str_byte_len pin < 4 ∨ str_byte_len pin > 63 then .error .PinLengthInvalid
  else .ok ()

/-- `HsmModuleImpl::validate_pin`: `pin.len()` (UTF-8 bytes) must lie in
`[6, 16]`. -/
def hsm_validate_pin (pin : List Char) : Except HsmError Unit :=
  if str_byte_len pin < 6 ∨ str_byte_len pin > 16 then .error .PinFormatInvalid
  else .ok ()

/-- `HsmModuleImpl::validate_so_pin`: `so_pin.len()` must be 16 and every
character an ASCII hex digit. -/
def hsm_validate_so_pin (so_pin : List Char) : Except HsmError Unit :=
  if str_byte_len so_pin ≠ 16 then .error .SoPinFormatInvalid
  else if !(so_pin.all is_ascii_hexdigit) then .error .SoPinFormatInvalid
  else .ok ()

/-! ## HSM key generation (src-tauri/src/hsm/mod.rs)

`execute_apdu` (connect + SELECT + transmit) is abstracted as an oracle from
the APDU command to its response data; every oracle invocation is transport
activity, and the functions below log the commands they pass to it. -/

/-- `HsmKeyType` from `hsm/types.rs` (only the fields used here). -/
inductive HsmKeyType where
  | Rsa
  | Ec (curve : String)
  | Aes
  deriving Repr, DecidableEq

/-- `HsmKeyInfo` from `hsm/types.rs` (`label` as a character list, like the
other modeled strings). -/
structure HsmKeyInfo where
  key_ref : Nat
  id : Nat
  label : List Char
  key_type : HsmKeyType
  key_size : Nat
  usage : List String
  deriving Repr, DecidableEq

/-- UTF-8 encoding of one character (Rust `char::encode_utf8`). -/
def char_utf8_bytes (c : Char) : List Nat :=
  let v := c.toNat
  if v < 0x80 then [v]
  else if v < 0x800 then [0xC0 + v / 64, 0x80 + v % 64]
  else if v < 0x10000 then [0xE0 + v / 4096, 0x80 + v / 64 % 64, 0x80 + v % 64]
  else [0xF0 + v / 262144, 0x80 + v / 4096 % 64, 0x80 + v / 64 % 64, 0x80 + v % 64]

/-- Rust `str::as_bytes()`: the UTF-8 encoding of the string. -/
def str_bytes (s : List Char) : List Nat := (s.map char_utf8_bytes).flatten

/-- `HsmModuleImpl::verify_pin`: local format validation, then a VERIFY APDU
(`CLA=00 INS=20 P1=00 P2=81`, data = PIN bytes) through `execute_apdu`. -/
def verify_pin (exec : ApduCommand → Except HsmError (List Nat)) (pin : List Char) :
    Except HsmError Unit × List ApduCommand :=
  match hsm_validate_pin pin with
  | .error e => (.error e, [])
  | .ok _ =>
    let cmd : ApduCommand := ⟨0x00, 0x20, 0x00, 0x81, some (str_bytes pin), none⟩
    match exec cmd with
    | .error e => (.error e, [cmd])
    | .ok _ => (.ok (), [cmd])

/-- `HsmModuleImpl::generate_rsa_key`: local PIN format validation, then the
RSA bit-size allow-list (1024/2048/3072/4096), then transport-backed PIN
verification, then the GENERATE ASYMMETRIC KEY PAIR APDU (`INS=46`). -/
def generate_rsa_key (exec : ApduCommand → Except HsmError (List Nat))
    (pin : List Char) (bits : Nat) (id : Nat) (label : List Char) :
    Except HsmError HsmKeyInfo × List ApduCommand :=
  match hsm_validate_pin pin with
  | .error e => (.error e, [])
  | .ok _ =>
    if ¬ (bits = 1024 ∨ bits = 2048 ∨ bits = 3072 ∨ bits = 4096) then
      (.error .NotSupported, [])
    else
      match verify_pin exec pin with
      | (.error e, log) => (.error e, log)
      | (.ok _, log) =>
        let data := [0x30, bits / 256 % 256, bits % 256] ++ str_bytes label
        let cmd : ApduCommand := ⟨0x00, 0x46, id, 0x00, some data, none⟩
        match exec cmd with
        | .error e => (.error e, log ++ [cmd])
        | .ok _ =>
          (.ok ⟨id, id, label, .Rsa, bits, ["sign", "decrypt"]⟩, log ++ [cmd])

/-! ## Device manager (src-tauri/src/device_manager.rs)

The two backend scans (`scan_hid_devices`, `scan_ccid_devices`) are passed in
as their outcomes; the opened-device `HashSet<String>` is modeled as a list of
paths. -/

/-- `DeviceType` from `types.rs`. -/
inductive DeviceType where
  | PicoFido
  | PicoHsm
  deriving Repr, DecidableEq

/-- `DeviceInfo` from `types.rs`. -/
structure DeviceInfo where
  device_type : DeviceType
  serial : String
  firmware_version : String
  path : String
  deriving Repr, DecidableEq

/-- `DeviceManagerImpl::scan_devices`: start from the empty list, extend with
each backend's devices when that backend succeeded, silently skipping a
failing backend; always returns `Ok`. -/
def scan_devices (hid ccid : Except DeviceError (List DeviceInfo)) :
    Except DeviceError (List DeviceInfo) :=
  let all : List DeviceInfo := []
  let all := match hid with
    | .ok devs => all ++ devs
    | .error _ => all
  let all := match ccid with
    | .ok devs => all ++ devs
    | .error _ => all
  .ok all

/-- The devices a backend outcome contributes: its list on success, nothing on
failure. -/
def backend_devices (r : Except DeviceError (List DeviceInfo)) : List DeviceInfo :=
  match r with
  | .ok devs => devs
  | .error _ => []

/-- `DeviceManagerImpl::open_device`: an already-open path succeeds at once;
otherwise re-scan (the returned flag records that a scan was performed) and
require the path to appear in the scan result, else `NotFound`. -/
def open_device (hid ccid : Except DeviceError (List DeviceInfo))
    (opened : List String) (path : String) :
    Except DeviceError (List String) × Bool :=
  if path ∈ opened then (.ok opened, false)
  else
    match scan_devices hid ccid with
    | .error e => (.error e, true)
    | .ok all =>
      if all.any (fun d => d.path == path) then (.ok (path :: opened), true)
      else (.error (.NotFound path), true)

/-- `DeviceManagerImpl::close_device`: removing an absent path is `NotFound`,
otherwise the path is removed. -/
def close_device (opened : List String) (path : String) :
    Except DeviceError (List String) :=
  if path ∈ opened then .ok (opened.erase path)
  else .error (.NotFound path)

/-! ## CTAP/CBOR command encoding (src-tauri/src/fido/cbor.rs) -/

/-- `ClientPinSubCommand` from `fido/types.rs`. -/
inductive ClientPinSubCommand where
  | GetRetries
  | GetKeyAgreement
  | SetPin
  | ChangePin
  | GetPinToken
  deriving Repr, DecidableEq

/-- `CredMgmtSubCommand` from `fido/types.rs`. -/
inductive CredMgmtSubCommand where
  | GetCredsMetadata
  | EnumerateRPsBegin
  | EnumerateRPsNext
  | EnumerateCredentialsBegin
  | EnumerateCredentialsNext
  | DeleteCredential
  deriving Repr, DecidableEq

/-- `AuthConfigSubCommand` from `fido/types.rs`. -/
inductive AuthConfigSubCommand where
  | EnableEnterpriseAttestation
  | ToggleAlwaysUv
  | SetMinPinLength
  deriving Repr, DecidableEq

/-- `CtapCommand` from `fido/types.rs`. -/
inductive CtapCommand where
  | MakeCredential
  | GetAssertion
  | GetInfo
  | ClientPin (sub : ClientPinSubCommand)
  | CredentialManagement (sub : CredMgmtSubCommand)
  | AuthenticatorConfig (sub : AuthConfigSubCommand)
  | Reset
  | Selection
  deriving Repr, DecidableEq

/-- `serde_cbor::to_vec` on a unit enum variant serializes the variant name as
a CBOR text string (major type 3): a header byte `0x60 + len` for lengths
below 24, else `0x78` followed by the one-byte length, then the ASCII name
bytes. -/
def serde_cbor_unit_variant (name : String) : List Nat :=
  let bs := name.data.map Char.toNat
  (if bs.length < 24 then [0x60 + bs.length] else [0x78, bs.length]) ++ bs

/-- The Rust variant name serde serializes for each `ClientPinSubCommand`. -/
def client_pin_variant_name : ClientPinSubCommand → String
  | .GetRetries => "GetRetries"
  | .GetKeyAgreement => "GetKeyAgreement"
  | .SetPin => "SetPin"
  | .ChangePin => "ChangePin"
  | .GetPinToken => "GetPinToken"

/-- The Rust variant name serde serializes for each `CredMgmtSubCommand`. -/
def cred_mgmt_variant_name : CredMgmtSubCommand → String
  | .GetCredsMetadata => "GetCredsMetadata"
  | .EnumerateRPsBegin => "EnumerateRPsBegin"
  | .EnumerateRPsNext => "EnumerateRPsNext"
  | .EnumerateCredentialsBegin => "EnumerateCredentialsBegin"
  | .EnumerateCredentialsNext => "EnumerateCredentialsNext"
  | .DeleteCredential => "DeleteCredential"

/-- The Rust variant name serde serializes for each `AuthConfigSubCommand`. -/
def auth_config_variant_name : AuthConfigSubCommand → String
  | .EnableEnterpriseAttestation => "EnableEnterpriseAttestation"
  | .ToggleAlwaysUv => "ToggleAlwaysUv"
  | .SetMinPinLength => "SetMinPinLength"

/-- `CborCodecImpl::encode_ctap_command`: select the command byte and optional
CBOR parameter block per variant, then emit the byte followed by the block. -/
def encode_ctap_command (cmd : CtapCommand) : Except CborError (List Nat) :=
  let pair : Nat × Option (List Nat) :=
    match cmd with
    | .GetInfo => (0x04, none)
    | .MakeCredential => (0x01, none)
    | .GetAssertion => (0x02, none)
    | .Reset => (0x07, none)
    | .Selection => (0x0B, none)
    | .ClientPin sub =>
        (0x06, some (serde_cbor_unit_variant (client_pin_variant_name sub)))
    | .CredentialManagement sub =>
        (0x0A, some (serde_cbor_unit_variant (cred_mgmt_variant_name sub)))
    | .AuthenticatorConfig sub =>
        (0x0D, some (serde_cbor_unit_variant (auth_config_variant_name sub)))
  .ok (pair.1 :: pair.2.getD [])

/-! ## CTAP response decoding (src-tauri/src/fido/cbor.rs)

`decode_ctap_response` feeds its payload to `serde_cbor::from_slice::<Value>`.
That external parser is embedded below as a fueled structural well-formedness
checker for a single CBOR data item consuming the whole input: definite and
indefinite strings/arrays/maps, tags, the standard simple values and floats,
UTF-8 validation of text strings, and rejection of reserved additional-info
values and stray break bytes. -/

/-- A UTF-8 continuation byte (`10xxxxxx`). -/
def utf8_cont (b : Nat) : Bool := decide (0x80 ≤ b) && decide (b ≤ 0xBF)

/-- UTF-8 validity of a byte sequence (the acceptance of Rust
`str::from_utf8`, which serde uses for CBOR text strings). -/
def utf8_valid : List Nat → Bool
  | [] => true
  | b :: rest =>
    if b < 0x80 then utf8_valid rest
    else if 0xC2 ≤ b ∧ b ≤ 0xDF then
      match rest with
      | c1 :: r2 => utf8_cont c1 && utf8_valid r2
      | [] => false
    else if b = 0xE0 then
      match rest with
      | c1 :: c2 :: r3 =>
        decide (0xA0 ≤ c1) && decide (c1 ≤ 0xBF) && utf8_cont c2 && utf8_valid r3
      | _ => false
    else if (0xE1 ≤ b ∧ b ≤ 0xEC) ∨ (0xEE ≤ b ∧ b ≤ 0xEF) then
      match rest with
      | c1 :: c2 :: r3 => utf8_cont c1 && utf8_cont c2 && utf8_valid r3
      | _ => false
    else if b = 0xED then
      match rest with
      | c1 :: c2 :: r3 =>
        decide (0x80 ≤ c1) && decide (c1 ≤ 0x9F) && utf8_cont c2 && utf8_valid r3
      | _ => false
    else if b = 0xF0 then
      match rest with
      | c1 :: c2 :: c3 :: r4 =>
        decide (0x90 ≤ c1) && decide (c1 ≤ 0xBF) && utf8_cont c2 && utf8_cont c3 &&
          utf8_valid r4
      | _ => false
    else if 0xF1 ≤ b ∧ b ≤ 0xF3 then
      match rest with
      | c1 :: c2 :: c3 :: r4 =>
        utf8_cont c1 && utf8_cont c2 && utf8_cont c3 && utf8_valid r4
      | _ => false
    else if b = 0xF4 then
      match rest with
      | c1 :: c2 :: c3 :: r4 =>
        decide (0x80 ≤ c1) && decide (c1 ≤ 0x8F) && utf8_cont c2 && utf8_cont c3 &&
          utf8_valid r4
      | _ => false
    else false

/-- Read `k` big-endian bytes into a value (with accumulator). -/
def read_be : Nat → Nat → List Nat → Option (Nat × List Nat)
  | 0, acc, bs => some (acc, bs)
  | _ + 1, _, [] => none
  | k + 1, acc, b :: bs => read_be k (acc * 256 + b) bs

/-- Read a CBOR additional-information argument: immediate values 0-23, or
1/2/4/8 following big-endian bytes for 24-27; 28-31 are malformed here
(callers handle 31 separately where indefinite forms are legal). -/
def read_len_arg (ai : Nat) (bs : List Nat) : Option (Nat × List Nat) :=
  if ai < 24 then some (ai, bs)
  else if ai = 24 then read_be 1 0 bs
  else if ai = 25 then read_be 2 0 bs
  else if ai = 26 then read_be 4 0 bs
  else if ai = 27 then read_be 8 0 bs
  else none

/-- Split off exactly `n` bytes, failing on short input. -/
def take_bytes (n : Nat) (bs : List Nat) : Option (List Nat × List Nat) :=
  if n ≤ bs.length then some (bs.take n, bs.drop n) else none

mutual

/-- Parse one CBOR data item, returning the remaining bytes. -/
def cbor_item : Nat → List Nat → Option (List Nat)
  | 0, _ => none
  | _ + 1, [] => none
  | f + 1, b :: bs =>
    let major := b / 32
    let ai := b % 32
    if major = 0 ∨ major = 1 then
      match read_len_arg ai bs with
      | some (_, rest) => some rest
      | none => none
    else if major = 2 then
      if ai = 31 then cbor_indef_chunks f 2 bs
      else
        match read_len_arg ai bs with
        | some (n, rest) =>
          match take_bytes n rest with
          | some (_, rest2) => some rest2
          | none => none
        | none => none
    else if major = 3 then
      if ai = 31 then cbor_indef_chunks f 3 bs
      else
        match read_len_arg ai bs with
        | some (n, rest) =>
          match take_bytes n rest with
          | some (chunk, rest2) => if utf8_valid chunk then some rest2 else none
          | none => none
        | none => none
    else if major = 4 then
      if ai = 31 then cbor_indef_items f bs
      else
        match read_len_arg ai bs with
        | some (n, rest) => cbor_items f n rest
        | none => none
    else if major = 5 then
      if ai = 31 then cbor_indef_pairs f bs
      else
        match read_len_arg ai bs with
        | some (n, rest) => cbor_items f (2 * n) rest
        | none => none
    else if major = 6 then
      match read_len_arg ai bs with
      | some (_, rest) => cbor_item f rest
      | none => none
    else
      if b = 0xF4 ∨ b = 0xF5 ∨ b = 0xF6 ∨ b = 0xF7 then some bs
      else if b = 0xF9 then Option.map (fun p => p.2) (take_bytes 2 bs)
      else if b = 0xFA then Option.map (fun p => p.2) (take_bytes 4 bs)
      else if b = 0xFB then Option.map (fun p => p.2) (take_bytes 8 bs)
      else none

/-- Parse `n` consecutive CBOR data items. -/
def cbor_items : Nat → Nat → List Nat → Option (List Nat)
  | _, 0, bs => some bs
  | 0, _ + 1, _ => none
  | f + 1, n + 1, bs =>
    match cbor_item f bs with
    | some rest => cbor_items f n rest
    | none => none

/-- Parse CBOR data items of an indefinite array until the break byte. -/
def cbor_indef_items : Nat → List Nat → Option (List Nat)
  | 0, _ => none
  | _ + 1, [] => none
  | _ + 1, 0xFF :: bs => some bs
  | f + 1, bs =>
    match cbor_item f bs with
    | some rest => cbor_indef_items f rest
    | none => none

/-- Parse key-value pairs of an indefinite map until the break byte. -/
def cbor_indef_pairs : Nat → List Nat → Option (List Nat)
  | 0, _ => none
  | _ + 1, [] => none
  | _ + 1, 0xFF :: bs => some bs
  | f + 1, bs =>
    match cbor_item f bs with
    | some rest =>
      match cbor_item f rest with
      | some rest2 => cbor_indef_pairs f rest2
      | none => none
    | none => none

/-- Parse definite chunks of the given major type (2 = bytes, 3 = text, with
UTF-8 checked per text chunk) until the break byte. -/
def cbor_indef_chunks : Nat → Nat → List Nat → Option (List Nat)
  | 0, _, _ => none
  | _ + 1, _, [] => none
  | _ + 1, _, 0xFF :: bs => some bs
  | f + 1, major, b :: bs =>
    if b / 32 = major ∧ b % 32 ≠ 31 then
      match read_len_arg (b % 32) bs with
      | some (n, rest) =>
        match take_bytes n rest with
        | some (chunk, rest2) =>
          if major = 3 then
            if utf8_valid chunk then cbor_indef_chunks f major rest2 else none
          else cbor_indef_chunks f major rest2
        | none => none
      | none => none
    else none

end

/-- `serde_cbor::from_slice::<Value>` acceptance: exactly one well-formed CBOR
data item consuming the whole input.  The fuel `4·length + 16` dominates the
number of parser steps (each step consumes input or descends one level). -/
def cbor_wf (bs : List Nat) : Bool :=
  match cbor_item (4 * bs.length + 16) bs with
  | some [] => true
  | _ => false

/-- `CtapResponse` from `fido/types.rs` (payload-carrying variants do not
matter to the decoder, which only ever produces `Success`; their payloads are
omitted). -/
inductive CtapResponse where
  | GetInfo
  | ClientPin
  | CredentialManagement
  | Error (code : Nat)
  | Success
  deriving Repr, DecidableEq

/-- One byte of Rust `format!("0x{:02X}", b)`: two uppercase hex digits. -/
def hex_digit (n : Nat) : Char :=
  if n < 10 then Char.ofNat (48 + n) else Char.ofNat (55 + n)

/-- Two-digit uppercase hex rendering of a byte. -/
def hex_byte (b : Nat) : String :=
  String.mk [hex_digit (b / 16 % 16), hex_digit (b % 16)]

/-- `CborCodecImpl::decode_ctap_response`: empty input is a decode error; the
first byte is the CTAP status; a non-zero status is an error carrying the code
in hex; status 0 with nothing else is `Success`; status 0 with a payload
requires the payload to parse as CBOR, then yields `Success` (the serde error
text of a failed parse is not modeled bit-exactly). -/
def decode_ctap_response (data : List Nat) : Except CborError CtapResponse :=
  match data with
  | [] => .error (.DecodingError "回應資料為空")
  | status :: payload =>
    if status ≠ 0x00 then
      .error (.DecodingError ("CTAP 錯誤碼: 0x" ++ hex_byte status))
    else if payload.isEmpty then .ok .Success
    else if cbor_wf payload then .ok .Success
    else .error (.DecodingError "CBOR 解碼失敗")

/-- `ctap_error_to_fido_error` from `fido/cbor.rs`. -/
def ctap_error_to_fido_error (code : Nat) : FidoError :=
  if code = 0x31 then .PinInvalid 0
  else if code = 0x32 then .PinLocked
  else if code = 0x33 then .PinLengthInvalid
  else if code = 0x36 then .PinInvalid 0
  else .CtapError code

/-! ## Theorems -/

/-- An ASCII hex digit occupies one UTF-8 byte. -/
theorem rust_char_utf8_len_of_hexdigit (c : Char) (h : is_ascii_hexdigit c = true) :
    rust_char_utf8_len c = 1 := by
  rw [is_ascii_hexdigit] at h
  simp only [Bool.or_eq_true, Bool.and_eq_true, decide_eq_true_eq] at h
  rw [rust_char_utf8_len, if_pos (by omega)]

/-- A string of ASCII hex digits has as many UTF-8 bytes as characters. -/
theorem str_byte_len_of_all_hexdigit (s : List Char)
    (h : s.all is_ascii_hexdigit = true) : str_byte_len s = s.length := by
  induction s with
  | nil => rfl
  | cons c cs ih =>
    rw [List.all_cons, Bool.and_eq_true] at h
    show rust_char_utf8_len c + str_byte_len cs = cs.length + 1
    rw [rust_char_utf8_len_of_hexdigit c h.1, ih h.2]
    omega

/-- Appending to a reply that carries at least its two status bytes leaves the
`61 XX` guard looking only at the appended reply. -/
theorem trailing61_append (s gr : List Nat) (h : 2 ≤ gr.length) :
    trailing61 (s ++ gr) = trailing61 gr := by
  unfold trailing61
  have h1 : decide (2 ≤ (s ++ gr).length) = true := by
    simp [List.length_append]; omega
  have h2 : decide (2 ≤ gr.length) = true := by simp [h]
  rw [h1, h2]
  simp only [Bool.true_and]
  have h3 : (s ++ gr).length - 2 = s.length + (gr.length - 2) := by
    simp [List.length_append]; omega
  rw [h3, List.getD_append_right _ _ _ _ (by omega)]
  have h4 : s.length + (gr.length - 2) - s.length = gr.length - 2 := by omega
  rw [h4]

/-- C1: `encode_apdu` produces the ISO 7816-4 case encoding described in the
spec: the four standard cases (with the `le = 256 → 0x00` sentinel) when data
length ≤ 255 and `le` ≤ 256, extended framing (`0x00` marker plus 2-byte
big-endian Lc/Le) otherwise, the extended no-data/no-Le case never emitted,
and an empty data field encoding identically to an absent one. -/
theorem c1_encode_apdu_iso7816 (cmd : ApduCommand)
    (hle : ∀ l, cmd.le = some l → l < 65536)
    (hdata : ∀ d, cmd.data = some d → d.length ≤ 65535) :
    encode_apdu cmd = encode_apdu_spec cmd ∧
    (needs_extended cmd = true →
      ((cmd.data.getD []).isEmpty = false ∨ cmd.le.isSome = true)) ∧
    encode_apdu { cmd with data := some [] } = encode_apdu { cmd with data := none } := by
  obtain ⟨cla, ins, p1, p2, data, le⟩ := cmd
  refine ⟨?_, ?_, ?_⟩
  · cases data with
    | none =>
      cases le with
      | none => rfl
      | some l =>
        have hl : l < 65536 := hle l rfl
        rcases Nat.lt_or_ge 256 l with hgt | hsmall
        · have f1 : ¬ (l ≤ 256) := by omega
          have f2 : l / 256 % 256 = l / 256 := by omega
          simp [encode_apdu, encode_apdu_spec, needs_extended, encode_extended,
            hgt, f1, f2]
        · have f1 : ¬ (256 < l) := by omega
          by_cases h256 : l = 256
          · subst h256
            simp [encode_apdu, encode_apdu_spec, needs_extended]
          · have f2 : ¬ (256 ≤ l) := by omega
            have f3 : l % 256 = l := by omega
            simp [encode_apdu, encode_apdu_spec, needs_extended, f1, f2, f3,
              h256, hsmall]
    | some d =>
      have hlen : d.length ≤ 65535 := hdata d rfl
      cases d with
      | nil =>
        cases le with
        | none => rfl
        | some l =>
          have hl : l < 65536 := hle l rfl
          rcases Nat.lt_or_ge 256 l with hgt | hsmall
          · have f1 : ¬ (l ≤ 256) := by omega
            have f2 : l / 256 % 256 = l / 256 := by omega
            simp [encode_apdu, encode_apdu_spec, needs_extended, encode_extended,
              hgt, f1, f2]
          · have f1 : ¬ (256 < l) := by omega
            by_cases h256 : l = 256
            · subst h256
              simp [encode_apdu, encode_apdu_spec, needs_extended]
            · have f2 : ¬ (256 ≤ l) := by omega
              have f3 : l % 256 = l := by omega
              simp [encode_apdu, encode_apdu_spec, needs_extended, f1, f2, f3,
                h256, hsmall]
      | cons a as =>
        have hlen1 : as.length + 1 ≤ 65535 := by simpa using hlen
        cases le with
        | none =>
          rcases Nat.lt_or_ge 255 (as.length + 1) with hgt | hsmall
          · have f1 : ¬ (as.length + 1 ≤ 255) := by omega
            have f2 : (as.length + 1) % 65536 = as.length + 1 := by omega
            simp [encode_apdu, encode_apdu_spec, needs_extended, encode_extended,
              hgt, f1, f2]
          · have f1 : ¬ (255 < as.length + 1) := by omega
            have f2 : (as.length + 1) % 256 = as.length + 1 := by omega
            simp [encode_apdu, encode_apdu_spec, needs_extended, f1, f2, hsmall]
        | some l =>
          have hl : l < 65536 := hle l rfl
          have fl2 : l / 256 % 256 = l / 256 := by omega
          have fd2 : (as.length + 1) % 65536 = as.length + 1 := by omega
          rcases Nat.lt_or_ge 255 (as.length + 1) with hgt | hsmall
          · have f1 : ¬ (as.length + 1 ≤ 255) := by omega
            simp [encode_apdu, encode_apdu_spec, needs_extended, encode_extended,
              hgt, f1, fl2, fd2]
          · have f1 : ¬ (255 < as.length + 1) := by omega
            rcases Nat.lt_or_ge 256 l with hgtl | hsmalll
            · have f2 : ¬ (l ≤ 256) := by omega
              simp [encode_apdu, encode_apdu_spec, needs_extended, encode_extended,
                hgtl, f1, f2, fl2, fd2, hsmall]
            · have f2 : ¬ (256 < l) := by omega
              have f3 : (as.length + 1) % 256 = as.length + 1 := by omega
              by_cases h256 : l = 256
              · subst h256
                simp [encode_apdu, encode_apdu_spec, needs_extended, f1, f2, f3,
                  hsmall]
              · have f4 : ¬ (256 ≤ l) := by omega
                have f5 : l % 256 = l := by omega
                simp [encode_apdu, encode_apdu_spec, needs_extended, f1, f2, f3,
                  f4, f5, h256, hsmall, hsmalll]
  · intro hext
    cases data with
    | none =>
      cases le with
      | none => simp [needs_extended] at hext
      | some l => right; simp
    | some d =>
      cases le with
      | none =>
        left
        simp [needs_extended] at hext
        cases d with
        | nil => simp at hext
        | cons a as => simp
      | some l => right; simp
  · cases le with
    | none => rfl
    | some l =>
      rcases Nat.lt_or_ge 256 l with hgt | hsmall
      · simp [encode_apdu, needs_extended, encode_extended, hgt]
      · have f1 : ¬ (256 < l) := by omega
        simp [encode_apdu, needs_extended, f1]

/-- C1 witness: the theorem applied to a concrete command (data of 5 bytes,
`le = 256`), with its hypotheses discharged. -/
theorem c1_encode_apdu_iso7816_witness :
    encode_apdu ⟨0x00, 0xA4, 0x04, 0x00, some [0xA0, 0x00, 0x00, 0x03, 0x08], some 256⟩ =
      encode_apdu_spec
        ⟨0x00, 0xA4, 0x04, 0x00, some [0xA0, 0x00, 0x00, 0x03, 0x08], some 256⟩ ∧
    (needs_extended ⟨0x00, 0xA4, 0x04, 0x00, some [0xA0, 0x00, 0x00, 0x03, 0x08],
        some 256⟩ = true →
      ((Option.getD (some [0xA0, 0x00, 0x00, 0x03, 0x08]) []).isEmpty = false ∨
        (some 256).isSome = true)) ∧
    encode_apdu ⟨0x00, 0xA4, 0x04, 0x00, some [], some 256⟩ =
      encode_apdu ⟨0x00, 0xA4, 0x04, 0x00, none, some 256⟩ :=
  c1_encode_apdu_iso7816 ⟨0x00, 0xA4, 0x04, 0x00, some [0xA0, 0x00, 0x00, 0x03, 0x08],
    some 256⟩ (by intro l hl; cases hl; decide) (by intro d hd; cases hd; decide)

/-- C2: `status_to_error` implements the documented total mapping: success for
`90 00`, continuation (`61 XX`) mapped to no error, `63 CX` to
`PinInvalid(X)`, `69 83` to `PinLocked`, `69 82` to `SoPinInvalid`,
`6A 82`/`6A 88` to `KeyNotFound`, and everything else to
`StatusError(sw1, sw2)`. -/
theorem c2_status_to_error_table :
    status_to_error 0x90 0x00 = none ∧
    (∀ sw2, status_to_error 0x61 sw2 = none) ∧
    (∀ sw2, sw2 &&& 0xF0 = 0xC0 →
      status_to_error 0x63 sw2 = some (.PinInvalid (sw2 &&& 0x0F))) ∧
    status_to_error 0x69 0x83 = some .PinLocked ∧
    status_to_error 0x69 0x82 = some .SoPinInvalid ∧
    status_to_error 0x6A 0x82 = some (.KeyNotFound 0) ∧
    status_to_error 0x6A 0x88 = some (.KeyNotFound 0) ∧
    (∀ sw1 sw2, ¬(sw1 = 0x90 ∧ sw2 = 0x00) → sw1 ≠ 0x61 →
      ¬(sw1 = 0x63 ∧ sw2 &&& 0xF0 = 0xC0) →
      ¬(sw1 = 0x69 ∧ sw2 = 0x83) → ¬(sw1 = 0x69 ∧ sw2 = 0x82) →
      ¬(sw1 = 0x6A ∧ sw2 = 0x82) → ¬(sw1 = 0x6A ∧ sw2 = 0x88) →
      status_to_error sw1 sw2 = some (.StatusError sw1 sw2)) := by
  refine ⟨rfl, ?_, ?_, rfl, rfl, rfl, rfl, ?_⟩
  · intro sw2
    simp [status_to_error]
  · intro sw2 h
    simp [status_to_error, h]
  · intro sw1 sw2 h1 h2 h3 h4 h5 h6 h7
    unfold status_to_error
    rw [if_neg h1, if_neg h2, if_neg h3, if_neg h4, if_neg h5, if_neg h6, if_neg h7]

/-- C2 witness: the continuation and PIN-retry rows of the table at concrete
status words. -/
theorem c2_status_to_error_table_witness :
    status_to_error 0x61 0x24 = none ∧
    ((0xC3 : Nat) &&& 0xF0 = 0xC0 ∧
      status_to_error 0x63 0xC3 = some (.PinInvalid (0xC3 &&& 0x0F))) ∧
    status_to_error 0x6F 0x00 = some (.StatusError 0x6F 0x00) :=
  ⟨c2_status_to_error_table.2.1 0x24,
   ⟨by decide, c2_status_to_error_table.2.2.1 0xC3 (by decide)⟩,
   c2_status_to_error_table.2.2.2.2.2.2.2 0x6F 0x00 (by decide) (by decide)
     (by decide) (by decide) (by decide) (by decide) (by decide)⟩

/-- C10: when the data field is longer than 65535 bytes, `encode_apdu` still
emits the whole data but the 2-byte extended Lc field carries the length
reduced modulo 65536 (the Rust `as u16` cast), disagreeing with the number of
data bytes actually appended. -/
theorem c10_extended_lc_truncates (cmd : ApduCommand) (d : List Nat)
    (hd : cmd.data = some d) (hlen : 65535 < d.length)
    (hle : ∀ l, cmd.le = some l → l < 65536) :
    encode_apdu cmd =
      [cmd.cla, cmd.ins, cmd.p1, cmd.p2, 0x00,
        d.length % 65536 / 256, d.length % 65536 % 256] ++ d ++
        (match cmd.le with
          | none => []
          | some l => [l / 256, l % 256]) ∧
    d.length % 65536 ≠ d.length := by
  obtain ⟨cla, ins, p1, p2, data, le⟩ := cmd
  simp only at hd
  subst hd
  constructor
  · have hne : needs_extended ⟨cla, ins, p1, p2, some d, le⟩ = true := by
      simp [needs_extended]; omega
    have hdne : d.isEmpty = false := by
      cases d with
      | nil => simp at hlen
      | cons a as => simp
    cases le with
    | none =>
      simp only [encode_apdu, hne, if_true, encode_extended, hdne, Bool.not_false,
        Option.isSome_none, Option.getD_some]
      simp
    | some l =>
      have hl : l < 65536 := hle l rfl
      have h3 : l / 256 % 256 = l / 256 := by omega
      simp only [encode_apdu, hne, if_true, encode_extended, hdne, Bool.not_false,
        Option.isSome_some, Option.getD_some, h3]
      simp
  · omega

/-- C10 witness: a 65537-byte data field, whose emitted Lc is `1 mod 65536`. -/
theorem c10_extended_lc_truncates_witness :
    65535 < (List.replicate 65537 0xAB).length ∧
    (encode_apdu ⟨0x00, 0xD6, 0x00, 0x00, some (List.replicate 65537 0xAB), none⟩ =
      [0x00, 0xD6, 0x00, 0x00, 0x00,
        (List.replicate 65537 0xAB).length % 65536 / 256,
        (List.replicate 65537 0xAB).length % 65536 % 256] ++
        List.replicate 65537 0xAB ++ [] ∧
      (List.replicate 65537 0xAB).length % 65536 ≠ (List.replicate 65537 0xAB).length) := by
  refine ⟨by rw [List.length_replicate]; omega, ?_⟩
  have h := c10_extended_lc_truncates
    ⟨0x00, 0xD6, 0x00, 0x00, some (List.replicate 65537 0xAB), none⟩
    (List.replicate 65537 0xAB) rfl (by rw [List.length_replicate]; omega)
    (by intro l hl; cases hl)
  exact h

/-- C3: the chaining loop of `transmit_raw`: while the trailing status is
`0x61 XX` it strips the status bytes, issues exactly the GET RESPONSE command
`00 C0 00 00 XX`, and appends the reply; it stops with the accumulated buffer
once the trailing status is no longer `0x61 XX` (so the result is the
concatenation of the data parts followed by the final status bytes); every
issued command is a GET RESPONSE; the number of extra round trips is at most
the number of `0x61` replies received (and at most the transport length, so
the loop terminates); a transmit failure during chaining is an immediate
communication error; and the spec's simulated two-reply scenario produces the
concatenated data with final status `90 00` in one extra round trip. -/
theorem c3_transmit_raw_chaining :
    (∀ t gr r, trailing61 r = true →
      chain_loop (some gr :: t) r =
        (get_response_cmd (r.getD (r.length - 1) 0) ::
            (chain_loop t (r.take (r.length - 2) ++ gr)).1,
          (chain_loop t (r.take (r.length - 2) ++ gr)).2)) ∧
    (∀ t r, trailing61 r = false → chain_loop t r = ([], .ok r)) ∧
    (∀ t r out, (chain_loop t r).2 = .ok out → trailing61 out = false) ∧
    (∀ t r c, c ∈ (chain_loop t r).1 → ∃ x, c = get_response_cmd x) ∧
    (∀ t r, (∀ gr, some gr ∈ t → 2 ≤ gr.length) →
      (chain_loop t r).1.length ≤ (if trailing61 r then 1 else 0) + count61 t) ∧
    (∀ t r, (chain_loop t r).1.length ≤ t.length) ∧
    (∀ t r, trailing61 r = true →
      chain_loop [] r = ([], .error (.CommunicationError "GET RESPONSE 失敗")) ∧
      chain_loop (none :: t) r =
        ([], .error (.CommunicationError "GET RESPONSE 失敗"))) ∧
    transmit_raw [some [0xAA, 0xBB, 0x61, 0x05], some [0x01, 0x02, 0x03, 0x90, 0x00]] =
      ([get_response_cmd 0x05], .ok [0xAA, 0xBB, 0x01, 0x02, 0x03, 0x90, 0x00]) := by
  refine ⟨?_, ?_, ?_, ?_, ?_, ?_, ?_, ?_⟩
  · intro t gr r h
    simp [chain_loop, h]
  · intro t r h
    cases t with
    | nil => simp [chain_loop, h]
    | cons o rest => cases o <;> simp [chain_loop, h]
  · intro t
    induction t with
    | nil =>
      intro r out h
      by_cases ht : trailing61 r
      · simp [chain_loop, ht] at h
      · simp [chain_loop, ht] at h
        rw [← h]
        simpa using ht
    | cons o rest ih =>
      intro r out h
      by_cases ht : trailing61 r
      · cases o with
        | none => simp [chain_loop, ht] at h
        | some gr =>
          simp only [chain_loop, ht, if_true] at h
          exact ih _ _ h
      · cases o <;> simp [chain_loop, ht] at h <;> rw [← h] <;> simpa using ht
  · intro t
    induction t with
    | nil =>
      intro r c hc
      by_cases ht : trailing61 r <;> simp [chain_loop, ht] at hc
    | cons o rest ih =>
      intro r c hc
      by_cases ht : trailing61 r
      · cases o with
        | none => simp [chain_loop, ht] at hc
        | some gr =>
          simp only [chain_loop, ht, if_true, List.mem_cons] at hc
          rcases hc with hc | hc
          · exact ⟨_, hc⟩
          · exact ih _ _ hc
      · cases o <;> simp [chain_loop, ht] at hc
  · intro t
    induction t with
    | nil =>
      intro r hlen
      by_cases ht : trailing61 r <;> simp [chain_loop, ht, count61]
    | cons o rest ih =>
      intro r hlen
      by_cases ht : trailing61 r
      · cases o with
        | none => simp [chain_loop, ht, count61]
        | some gr =>
          have hgr : 2 ≤ gr.length := hlen gr (by simp)
          have hrest : ∀ g, some g ∈ rest → 2 ≤ g.length := by
            intro g hg
            exact hlen g (by simp [hg])
          have hb := ih (r.take (r.length - 2) ++ gr) hrest
          rw [trailing61_append _ _ hgr] at hb
          simp only [chain_loop, ht, if_true, List.length_cons]
          simp only [count61, List.countP_cons] at hb ⊢
          by_cases htg : trailing61 gr <;> simp [htg] at hb ⊢ <;> omega
      · cases o <;> simp [chain_loop, ht]
  · intro t
    induction t with
    | nil =>
      intro r
      by_cases ht : trailing61 r <;> simp [chain_loop, ht]
    | cons o rest ih =>
      intro r
      by_cases ht : trailing61 r
      · cases o with
        | none => simp [chain_loop, ht]
        | some gr =>
          have hb := ih (r.take (r.length - 2) ++ gr)
          simp only [chain_loop, ht, if_true, List.length_cons]
          omega
      · cases o <;> simp [chain_loop, ht]
  · intro t r h
    exact ⟨by simp [chain_loop, h], by simp [chain_loop, h]⟩
  · rfl

/-- C3 witness: the step equation applied to a concrete `61 05` reply. -/
theorem c3_transmit_raw_chaining_witness :
    trailing61 [0xAA, 0xBB, 0x61, 0x05] = true ∧
    chain_loop [some [0x01, 0x02, 0x03, 0x90, 0x00]] [0xAA, 0xBB, 0x61, 0x05] =
      (get_response_cmd ([0xAA, 0xBB, 0x61, 0x05].getD (4 - 1) 0) ::
          (chain_loop [] ([0xAA, 0xBB, 0x61, 0x05].take (4 - 2) ++
            [0x01, 0x02, 0x03, 0x90, 0x00])).1,
        (chain_loop [] ([0xAA, 0xBB, 0x61, 0x05].take (4 - 2) ++
          [0x01, 0x02, 0x03, 0x90, 0x00])).2) :=
  ⟨by decide,
   c3_transmit_raw_chaining.1 [] [0x01, 0x02, 0x03, 0x90, 0x00]
     [0xAA, 0xBB, 0x61, 0x05] (by decide)⟩

/-- C5 counterexample: the HSM PIN validator measures UTF-8 bytes, not
characters.  The three-character string `ééé` has six UTF-8 bytes, so the
code accepts it although its character length 3 lies outside `[6, 16]` —
refuting the claim's "character length" reading. -/
theorem c5_pin_validation_counterexample :
    ¬ (hsm_validate_pin ['é', 'é', 'é'] = .ok () ↔
        6 ≤ (['é', 'é', 'é'] : List Char).length ∧
          (['é', 'é', 'é'] : List Char).length ≤ 16) := by decide

/-- C5 (amended): the FIDO PIN validator accepts exactly UTF-8 byte lengths
in `[4, 63]`; the HSM PIN validator accepts exactly UTF-8 byte lengths in
`[6, 16]` (bytes, not characters); the SO-PIN validator accepts exactly
strings of 16 ASCII hex characters (case-insensitive). -/
theorem c5_pin_validation_boundaries (pin : List Char) :
    (fido_validate_pin pin = .ok () ↔
      4 ≤ str_byte_len pin ∧ str_byte_len pin ≤ 63) ∧
    (hsm_validate_pin pin = .ok () ↔
      6 ≤ str_byte_len pin ∧ str_byte_len pin ≤ 16) ∧
    (hsm_validate_so_pin pin = .ok () ↔
      pin.length = 16 ∧ pin.all is_ascii_hexdigit = true) := by
  refine ⟨?_, ?_, ?_⟩
  · constructor
    · intro hok
      unfold fido_validate_pin at hok
      by_cases h : str_byte_len pin < 4 ∨ str_byte_len pin > 63
      · rw [if_pos h] at hok
        exact absurd hok (by simp)
      · omega
    · intro hb
      unfold fido_validate_pin
      rw [if_neg (by omega)]
  · constructor
    · intro hok
      unfold hsm_validate_pin at hok
      by_cases h : str_byte_len pin < 6 ∨ str_byte_len pin > 16
      · rw [if_pos h] at hok
        exact absurd hok (by simp)
      · omega
    · intro hb
      unfold hsm_validate_pin
      rw [if_neg (by omega)]
  · constructor
    · intro hok
      unfold hsm_validate_so_pin at hok
      by_cases h1 : str_byte_len pin ≠ 16
      · rw [if_pos h1] at hok
        exact absurd hok (by simp)
      · rw [if_neg h1] at hok
        by_cases h2 : (!(pin.all is_ascii_hexdigit)) = true
        · rw [if_pos h2] at hok
          exact absurd hok (by simp)
        · have hall : pin.all is_ascii_hexdigit = true := by simpa using h2
          have hlen : str_byte_len pin = 16 := by omega
          rw [str_byte_len_of_all_hexdigit pin hall] at hlen
          exact ⟨hlen, hall⟩
    · intro hp
      obtain ⟨hlen, hall⟩ := hp
      unfold hsm_validate_so_pin
      have hb : str_byte_len pin = 16 := by
        rw [str_byte_len_of_all_hexdigit pin hall, hlen]
      rw [if_neg (by omega), if_neg (by simp [hall])]

/-- C6 counterexample: `generate_rsa_key` validates the PIN format before the
bit-size allow-list, so with the empty PIN and 512 bits it fails with
`PinFormatInvalid`, not `NotSupported` — refuting "fails with NotSupported
for any pin value" (no transport call is attempted either way). -/
theorem c6_generate_rsa_512_counterexample :
    generate_rsa_key (fun _ => .ok []) [] 512 1 [] =
      (.error HsmError.PinFormatInvalid, []) ∧
    HsmError.PinFormatInvalid ≠ HsmError.NotSupported := by
  exact ⟨rfl, by decide⟩

/-- C6 (amended): for every pin, id, label and transport oracle,
`generate_rsa_key(pin, 512, id, label)` fails without a single transport
call: with `NotSupported` when the pin passes local format validation
(the 512-bit size is rejected by the allow-list before transport-backed PIN
verification), and with `PinFormatInvalid` otherwise. -/
theorem c6_generate_rsa_512_no_transport
    (exec : ApduCommand → Except HsmError (List Nat))
    (pin : List Char) (id : Nat) (label : List Char) :
    (generate_rsa_key exec pin 512 id label).2 = [] ∧
    (generate_rsa_key exec pin 512 id label).1 =
      (match hsm_validate_pin pin with
        | .ok _ => .error HsmError.NotSupported
        | .error e => .error e) := by
  unfold generate_rsa_key
  cases h : hsm_validate_pin pin with
  | error e => simp [h]
  | ok u => simp [h]

/-- `scan_devices` always succeeds with the HID backend's contribution
followed by the PC/SC backend's contribution. -/
theorem scan_devices_eq (hid ccid : Except DeviceError (List DeviceInfo)) :
    scan_devices hid ccid = .ok (backend_devices hid ++ backend_devices ccid) := by
  cases hid <;> cases ccid <;> simp [scan_devices, backend_devices]

/-- C7: `open_device` on an already-open path succeeds without re-scanning;
on an unopened path it re-scans and succeeds exactly when the path appears in
the live device list (failing with `NotFound` otherwise); `close_device` fails
with `NotFound` exactly when the path was not open, and otherwise removes the
path and succeeds. -/
theorem c7_open_close_semantics :
    (∀ hid ccid (opened : List String) path, path ∈ opened →
      open_device hid ccid opened path = (.ok opened, false)) ∧
    (∀ hid ccid (opened : List String) path, path ∉ opened →
      (open_device hid ccid opened path).2 = true ∧
      ((∃ d ∈ backend_devices hid ++ backend_devices ccid, d.path = path) →
        open_device hid ccid opened path = (.ok (path :: opened), true)) ∧
      ((∀ d ∈ backend_devices hid ++ backend_devices ccid, d.path ≠ path) →
        open_device hid ccid opened path = (.error (.NotFound path), true))) ∧
    (∀ (opened : List String) path, path ∉ opened →
      close_device opened path = .error (.NotFound path)) ∧
    (∀ (opened : List String) path, path ∈ opened →
      close_device opened path = .ok (opened.erase path)) ∧
    (∀ (opened : List String) path, opened.Nodup →
      path ∉ opened.erase path) := by
  refine ⟨?_, ?_, ?_, ?_, ?_⟩
  · intro hid ccid opened path hmem
    simp [open_device, hmem]
  · intro hid ccid opened path hno
    have hscan := scan_devices_eq hid ccid
    refine ⟨?_, ?_, ?_⟩
    · unfold open_device
      rw [if_neg hno, hscan]
      by_cases h :
          (backend_devices hid ++ backend_devices ccid).any (fun d => d.path == path)
      · simp [h]
      · simp [h]
    · intro hex
      obtain ⟨d, hd, hdp⟩ := hex
      unfold open_device
      rw [if_neg hno, hscan]
      have h : ((backend_devices hid ++ backend_devices ccid).any
          (fun d => d.path == path)) = true := by
        rw [List.any_eq_true]
        exact ⟨d, hd, by simp [hdp]⟩
      simp [h]
    · intro hall
      unfold open_device
      rw [if_neg hno, hscan]
      have h : ¬ (((backend_devices hid ++ backend_devices ccid).any
          (fun d => d.path == path)) = true) := by
        rw [List.any_eq_true]
        rintro ⟨d, hd, hdp⟩
        exact hall d hd (by simpa using hdp)
      simp [h]
  · intro opened path hno
    simp [close_device, hno]
  · intro opened path hmem
    simp [close_device, hmem]
  · intro opened path hnd
    exact hnd.not_mem_erase

/-- C7 witness: opening an already-open path, opening a path visible to the
scan, opening an unknown path, and closing in both states, all at concrete
inputs. -/
theorem c7_open_close_semantics_witness :
    open_device (.ok []) (.ok []) ["r1"] "r1" = (.ok ["r1"], false) ∧
    close_device ["r1"] "r2" = .error (.NotFound "r2") ∧
    close_device ["r1"] "r1" = .ok (["r1"].erase "r1") :=
  ⟨c7_open_close_semantics.1 (.ok []) (.ok []) ["r1"] "r1" (by simp),
   c7_open_close_semantics.2.2.1 ["r1"] "r2" (by simp),
   c7_open_close_semantics.2.2.2.1 ["r1"] "r1" (by simp)⟩

/-- C8: `scan_devices` never fails as a whole: whatever the two backend
outcomes, it returns `Ok` with exactly the successful backends' device lists
concatenated, HID first, a failing backend contributing nothing. -/
theorem c8_scan_devices_never_fails (hid ccid : Except DeviceError (List DeviceInfo)) :
    scan_devices hid ccid = .ok (backend_devices hid ++ backend_devices ccid) ∧
    (∀ e, scan_devices hid ccid ≠ .error e) := by
  refine ⟨scan_devices_eq hid ccid, ?_⟩
  intro e
  rw [scan_devices_eq hid ccid]
  simp

/-- C9: `encode_ctap_command` emits each variant's fixed command byte first
(GetInfo=04, MakeCredential=01, GetAssertion=02, ClientPin=06,
CredentialManagement=0A, AuthenticatorConfig=0D, Reset=07, Selection=0B);
parameterless variants encode to exactly that byte, and every sub-command
variant is followed by a non-empty CBOR parameter block. -/
theorem c9_encode_ctap_command_table :
    encode_ctap_command .GetInfo = .ok [0x04] ∧
    encode_ctap_command .MakeCredential = .ok [0x01] ∧
    encode_ctap_command .GetAssertion = .ok [0x02] ∧
    encode_ctap_command .Reset = .ok [0x07] ∧
    encode_ctap_command .Selection = .ok [0x0B] ∧
    (∀ sub, ∃ p, p ≠ [] ∧
      encode_ctap_command (.ClientPin sub) = .ok (0x06 :: p)) ∧
    (∀ sub, ∃ p, p ≠ [] ∧
      encode_ctap_command (.CredentialManagement sub) = .ok (0x0A :: p)) ∧
    (∀ sub, ∃ p, p ≠ [] ∧
      encode_ctap_command (.AuthenticatorConfig sub) = .ok (0x0D :: p)) := by
  refine ⟨rfl, rfl, rfl, rfl, rfl, ?_, ?_, ?_⟩
  · intro sub
    cases sub <;> refine ⟨_, ?_, rfl⟩ <;> decide
  · intro sub
    cases sub <;> refine ⟨_, ?_, rfl⟩ <;> decide
  · intro sub
    cases sub <;> refine ⟨_, ?_, rfl⟩ <;> decide

/-- C4: `decode_ctap_response` on the empty sequence is a decode error;
`[0x00]` decodes to `Success`; a `0x00` status followed by structurally valid
CBOR succeeds while malformed CBOR after a success status fails (checked on
the concrete payloads `A0` and `FF FF` too); every non-zero first byte is a
failure carrying the code, and the CTAP status-code table maps `0x31`/`0x36`
to `PinInvalid`, `0x32` to `PinLocked`, `0x33` to `PinLengthInvalid`, and any
other code to a generic CTAP error — in particular `[0x31]` is an error whose
code maps to `PinInvalid`. -/
theorem c4_decode_ctap_response_table :
    decode_ctap_response [] = .error (.DecodingError "回應資料為空") ∧
    decode_ctap_response [0x00] = .ok .Success ∧
    (∀ p, p ≠ [] → cbor_wf p = true →
      decode_ctap_response (0x00 :: p) = .ok .Success) ∧
    (∀ p, p ≠ [] → cbor_wf p = false →
      decode_ctap_response (0x00 :: p) = .error (.DecodingError "CBOR 解碼失敗")) ∧
    decode_ctap_response [0x00, 0xA0] = .ok .Success ∧
    (∃ e, decode_ctap_response [0x00, 0xFF, 0xFF] = .error e) ∧
    (∀ c p, c ≠ 0x00 →
      decode_ctap_response (c :: p) =
        .error (.DecodingError ("CTAP 錯誤碼: 0x" ++ hex_byte c))) ∧
    (∃ e, decode_ctap_response [0x31] = .error e) ∧
    ctap_error_to_fido_error 0x31 = .PinInvalid 0 ∧
    ctap_error_to_fido_error 0x36 = .PinInvalid 0 ∧
    ctap_error_to_fido_error 0x32 = .PinLocked ∧
    ctap_error_to_fido_error 0x33 = .PinLengthInvalid ∧
    (∀ c, c ≠ 0x31 → c ≠ 0x32 → c ≠ 0x33 → c ≠ 0x36 →
      ctap_error_to_fido_error c = .CtapError c) := by
  refine ⟨rfl, rfl, ?_, ?_, by decide,
    ⟨.DecodingError "CBOR 解碼失敗", by decide⟩, ?_,
    ⟨.DecodingError "CTAP 錯誤碼: 0x31", by decide⟩,
    rfl, rfl, rfl, rfl, ?_⟩
  · intro p hne hwf
    simp [decode_ctap_response, hne, hwf]
  · intro p hne hwf
    simp [decode_ctap_response, hne, hwf]
  · intro c p hc
    simp [decode_ctap_response, hc]
  · intro c h1 h2 h3 h4
    unfold ctap_error_to_fido_error
    rw [if_neg h1, if_neg h2, if_neg h3, if_neg h4]

/-- C4 witness: the generic-success and generic-failure rows applied to the
concrete payloads `A0` (valid CBOR) and `C3` alone as a non-zero status. -/
theorem c4_decode_ctap_response_table_witness :
    (([0xA0] : List Nat) ≠ [] ∧ cbor_wf [0xA0] = true ∧
      decode_ctap_response (0x00 :: [0xA0]) = .ok .Success) ∧
    ((0x31 : Nat) ≠ 0x00 ∧
      decode_ctap_response (0x31 :: []) =
        .error (.DecodingError ("CTAP 錯誤碼: 0x" ++ hex_byte 0x31))) :=
  ⟨⟨by decide, by decide,
    c4_decode_ctap_response_table.2.2.1 [0xA0] (by decide) (by decide)⟩,
   ⟨by decide,
    c4_decode_ctap_response_table.2.2.2.2.2.2.1 0x31 [] (by decide)⟩⟩

end PicoKeys
